import Mathlib

/-!
Verification of the cerebrum dual-store ingestion/query core.

This file gives a shallow embedding of the core of the `cerebrum`
repository: the application service (`cerebrum/application/service.py`),
the SQLite-backed repository (`cerebrum/repository/sqlite_repository.py`
together with the SQL it executes, from
`cerebrum/infra/db/sql/sqlite_sql_producer.py` and the transaction
discipline of `cerebrum/infra/db/sql/sqlite_client.py`), and the FAISS
vector-index wrapper (`cerebrum/infra/semantic_store/faiss_client.py`).

The relational state is modelled explicitly: the three tables created by
`SqliteSqlProducer.create_tables` become lists of rows plus the
`AUTOINCREMENT` counter for `index_embeddings.id64`; `uuid4()` calls are
modelled by a fresh-identifier counter.  Python exceptions become an
explicit error type returned through `Except`.  Vector payloads are
opaque to the service layer (as they are in `service.py`), so the
service model keeps them as plain integer lists; the FAISS wrapper's
numeric behaviour (L2 normalization and inner-product search) is
modelled separately over real-valued vectors.
-/

namespace Cerebrum

/-- Status column of the `embeddings` table:
`CHECK(status IN ('active', 'archived')) DEFAULT 'active'`. -/
inductive EmbStatus where
  | active
  | archived
deriving DecidableEq, Repr

/-- Status column of the `index_embeddings` table:
`CHECK(status IN ('pending', 'complete')) DEFAULT 'pending'`. -/
inductive LinkStatus where
  | pending
  | complete
deriving DecidableEq, Repr

/-- Modelled from the spec: `cerebrum.core.thought.Thought` is imported by
`service.py` and `sqlite_repository.py` but its module is absent from the
source tree.  Spec section 3: "Thought (ephemeral input): free-text body +
a set of tags." -/
structure Thought where
  body : String
  tags : List String
deriving DecidableEq, Repr

/-- `EmbeddingRecord` from `cerebrum/embedder/embedder.py`: the embedding
vector and the name of the model that produced it.  The service layer
never inspects vector contents, so the payload is kept opaque here. -/
structure EmbeddingRecord where
  vector : List Int
  model_name : String
deriving DecidableEq, Repr

/-- One row of the `embeddings` table (see
`SqliteSqlProducer.create_tables` / `insert_embeddings_row`). -/
structure EmbRow where
  embedding_id : Nat
  body : String
  tags : List String
  model_name : String
  status : EmbStatus
  embedding : List Int
  created_at : Nat
deriving DecidableEq, Repr

/-- One row of the `indexes` table (UNIQUE on `index_name`). -/
structure IndexRow where
  index_id : Nat
  index_name : String
  algorithm : String
  created_at : Nat
deriving DecidableEq, Repr

/-- One row of the `index_embeddings` table.  `id64` is the
`INTEGER PRIMARY KEY AUTOINCREMENT` column. -/
structure LinkRow where
  id64 : Nat
  index_id : Nat
  embedding_id : Nat
  status : LinkStatus
deriving DecidableEq, Repr

/-- The relational state: the three tables plus the AUTOINCREMENT counter
that generates `id64` values (monotone, never reused, per SQLite
AUTOINCREMENT semantics). -/
structure DbState where
  embeddings : List EmbRow
  indexes : List IndexRow
  links : List LinkRow
  next_id64 : Nat
deriving DecidableEq, Repr

/-- Whole-system state: the SQLite database, the `uuid4()` fresh-identifier
supply (UUIDs modelled as naturals drawn from a counter), and the vector
store's id64-to-vector contents as seen by the service layer. -/
structure Sys where
  db : DbState
  uuidCtr : Nat
  vecStore : List (Nat × List Int)
deriving DecidableEq, Repr

/-- Errors surfaced to callers.  `integrityError`, `valueError`,
`keyError`, `indexError`, `typeError` model the Python exceptions the
code actually raises (`sqlite3.IntegrityError`, `ValueError`, `KeyError`,
`IndexError`, `TypeError`); `ioError` models a propagated storage-engine
failure injected at the vector-store boundary.  `unknownIndex` and
`duplicateName` are the error names used by the specification; no code
path in the repository constructs them (no such classes exist in the
source), and they are included so that statements can compare what the
code raises against what the spec names. -/
inductive Err where
  | integrityError : String → Err
  | valueError : String → Err
  | keyError : Int → Err
  | indexError : Err
  | ioError : Err
  | typeError : String → Err
  | unknownIndex : Err
  | duplicateName : Err
deriving DecidableEq, Repr

/-- `ThoughtRecord` from `cerebrum/repository/thought_repository.py`,
as hydrated by `SqliteRepository._hydrate_thought_record`. -/
structure ThoughtRecord where
  embedding_id : Nat
  id64 : Nat
  body : String
  tags : List String
  status : EmbStatus
  created_at : Nat
deriving DecidableEq, Repr

/-- `SearchHit` from `cerebrum/application/service.py`: record, score,
zero-based rank. -/
structure SearchHit where
  record : ThoughtRecord
  score : Rat
  rank : Nat
deriving DecidableEq, Repr

/-- The external collaborators injected into `Service.__init__`:
the embedder (`Embedder.embed`) and the semantic store's query operation
(`SemanticStore.query`, returning parallel arrays of distances and
id64s).  `Service` treats both as black boxes. -/
structure Collab where
  embed : String → EmbeddingRecord
  storeQuery : List Int → Nat → List Rat × List Int

/-- `SqliteRepository.create_index`: generates a fresh `index_id` via
`uuid4()` and executes `insert_indexes_row`.  SQLite enforces the
`index_id` primary key and the `UNIQUE (index_name)` constraint; a
violation raises `sqlite3.IntegrityError` (single statement in autocommit
mode, so nothing is inserted on failure). -/
def createIndex (s : Sys) (index_name algorithm : String) : Except Err Nat × Sys :=
  let index_id := s.uuidCtr
  if s.db.indexes.any (fun ix => ix.index_name == index_name) then
    (Except.error (Err.integrityError "UNIQUE constraint failed: indexes.index_name"), s)
  else if s.db.indexes.any (fun ix => ix.index_id == index_id) then
    (Except.error (Err.integrityError "UNIQUE constraint failed: indexes.index_id"), s)
  else
    (Except.ok index_id,
      { s with
        uuidCtr := s.uuidCtr + 1,
        db := { s.db with
          indexes := s.db.indexes ++ [⟨index_id, index_name, algorithm, 0⟩] } })

/-- The embedding row written by `insert_embeddings_row` for a thought:
status defaults to `'active'`, tags are serialized, the vector bytes are
stored in the `embedding` blob column. -/
def embRowOf (s : Sys) (t : Thought) (emb : EmbeddingRecord) : EmbRow :=
  ⟨s.uuidCtr, t.body, t.tags, emb.model_name, EmbStatus.active, emb.vector, 0⟩

/-- `SqliteRepository.insert_thought`: inside one `BEGIN IMMEDIATE`
transaction, generate `embedding_id` via `uuid4()`, insert the embedding
row, insert the link row (status defaulting to `'pending'`, `id64`
generated by AUTOINCREMENT and returned via `RETURNING id64`), then
commit.  Constraint violations (`embeddings.embedding_id` primary key,
the `index_id` foreign key — `PRAGMA foreign_keys = ON` — or
`UNIQUE (index_id, embedding_id)`) raise `sqlite3.IntegrityError` and the
transaction is rolled back, leaving the state unchanged. -/
def insertThought (s : Sys) (t : Thought) (emb : EmbeddingRecord) (index_id : Nat) :
    Except Err (Nat × Sys) :=
  let embedding_id := s.uuidCtr
  if s.db.embeddings.any (fun e => e.embedding_id == embedding_id) then
    Except.error (Err.integrityError "UNIQUE constraint failed: embeddings.embedding_id")
  else if !(s.db.indexes.any (fun ix => ix.index_id == index_id)) then
    Except.error (Err.integrityError "FOREIGN KEY constraint failed")
  else if s.db.links.any (fun l => l.index_id == index_id && l.embedding_id == embedding_id) then
    Except.error (Err.integrityError "UNIQUE constraint failed: index_embeddings.index_id, index_embeddings.embedding_id")
  else
    Except.ok (s.db.next_id64,
      { s with
        uuidCtr := s.uuidCtr + 1,
        db := { s.db with
          embeddings := s.db.embeddings ++ [embRowOf s t emb],
          links := s.db.links ++ [⟨s.db.next_id64, index_id, s.uuidCtr, LinkStatus.pending⟩],
          next_id64 := s.db.next_id64 + 1 } })

/-- The `UPDATE index_embeddings SET status = 'complete' WHERE id64 = :id64`
statement produced by `update_index_embeddings_status`. -/
def completeLink (db : DbState) (id64 : Nat) : DbState :=
  { db with
    links := db.links.map (fun l =>
      if l.id64 == id64 then { l with status := LinkStatus.complete } else l) }

/-- `SqliteRepository.complete_thought_insert`. -/
def completeThoughtInsert (s : Sys) (id64 : Nat) : Sys :=
  { s with db := completeLink s.db id64 }

/-- `Service.add_thought`: embed the body, insert the thought and link row
(committing the metadata transaction), write the vector to the semantic
store keyed by the returned `id64`, then mark the link complete, and
return the `id64`.  The two booleans inject failures of the two external
vector-store/repository steps (step 3: the `semantic_store.write` call;
step 4: the `complete_thought_insert` update); `Service.add_thought` has
no exception handling, so an injected failure propagates and the function
stops at that point.  The returned pair is the caller-visible outcome and
the durable system state afterwards. -/
def addThought (c : Collab) (s : Sys) (t : Thought) (index_id : Nat)
    (vecFail completeFail : Bool) : Except Err Nat × Sys :=
  let emb := c.embed t.body
  match insertThought s t emb index_id with
  | Except.error e => (Except.error e, s)
  | Except.ok (id64, s1) =>
    if vecFail then (Except.error Err.ioError, s1)
    else
      let s2 := { s1 with vecStore := s1.vecStore ++ [(id64, emb.vector)] }
      if completeFail then (Except.error Err.ioError, s2)
      else (Except.ok id64, completeThoughtInsert s2 id64)

/-- `SqliteRepository.retrieve_thoughts` executing the SQL built by
`SqliteSqlProducer.select_ids`: raises `ValueError` when the id list is
empty, otherwise joins `index_embeddings` with `embeddings` and keeps the
rows with the requested status, the requested `index_id`, and an `id64`
in the given list. -/
def retrieveThoughts (s : Sys) (ids : List Int) (index_id : Nat) (status : EmbStatus) :
    Except Err (List ThoughtRecord) :=
  if ids.isEmpty then Except.error (Err.valueError "Ids must be non-empty.")
  else
    Except.ok (s.db.links.filterMap (fun l =>
      if l.index_id == index_id && ids.contains ((l.id64 : Int)) then
        match s.db.embeddings.find? (fun e => e.embedding_id == l.embedding_id) with
        | some e =>
          if e.status == status then
            some ⟨e.embedding_id, l.id64, e.body, e.tags, e.status, e.created_at⟩
          else none
        | none => none
      else none))

/-- The dict comprehension `{thought.id64: thought for thought in thoughts}`
of `Service._create_search_hits`, as a lookup function (later entries
overwrite earlier ones, hence the reversal). -/
def thoughtsMap (ts : List ThoughtRecord) (id : Int) : Option ThoughtRecord :=
  ts.reverse.find? (fun t => ((t.id64 : Int) == id))

/-- The `for i, id in enumerate(ids)` loop body of
`Service._create_search_hits`: `thoughts_map[id]` raises `KeyError` when
`id` has no entry, `similarities[i]` raises `IndexError` past the end,
otherwise a `SearchHit` with `rank = i` is appended. -/
def hitsAux (m : Int → Option ThoughtRecord) (sims : List Rat) :
    List Int → Nat → Except Err (List SearchHit)
  | [], _ => Except.ok []
  | id :: rest, i =>
    match m id with
    | none => Except.error (Err.keyError id)
    | some t =>
      match sims.get? i with
      | none => Except.error Err.indexError
      | some sc =>
        match hitsAux m sims rest (i + 1) with
        | Except.error e => Except.error e
        | Except.ok hs => Except.ok ({ record := t, score := sc, rank := i } :: hs)

/-- `Service._create_search_hits`. -/
def createSearchHits (ts : List ThoughtRecord) (sims : List Rat) (ids : List Int) :
    Except Err (List SearchHit) :=
  hitsAux (thoughtsMap ts) sims ids 0

/-- `Service.query`: embed the query text, ask the semantic store for the
top-k (distances, id64s), fetch the matching active rows scoped to
`index_id`, and pair them up with `_create_search_hits`. -/
def query (c : Collab) (s : Sys) (q : String) (index_id : Nat) (k : Nat) :
    Except Err (List SearchHit) :=
  let pr := c.storeQuery (c.embed q).vector k
  match retrieveThoughts s pr.2 index_id EmbStatus.active with
  | Except.error e => Except.error e
  | Except.ok ts => createSearchHits ts pr.1 pr.2

end Cerebrum

namespace Cerebrum

instance {α β : Type} [DecidableEq α] [DecidableEq β] : DecidableEq (Except α β) := fun a b =>
  match a, b with
  | Except.ok x, Except.ok y =>
    if h : x = y then isTrue (by rw [h]) else isFalse (by intro hc; cases hc; exact h rfl)
  | Except.error x, Except.error y =>
    if h : x = y then isTrue (by rw [h]) else isFalse (by intro hc; cases hc; exact h rfl)
  | Except.ok _, Except.error _ => isFalse (by intro hc; cases hc)
  | Except.error _, Except.ok _ => isFalse (by intro hc; cases hc)

/-- A sample catalog row: index "notes". -/
def fxIndex : IndexRow := ⟨0, "notes", "flat", 0⟩

/-- A sample embedding row, active, with `embedding_id = 10`. -/
def fxEmb : EmbRow := ⟨10, "buy milk", ["errand"], "m1", EmbStatus.active, [1], 0⟩

/-- A sample link row: the embedding is a member of index 0 under
`id64 = 7`, fully replicated (`complete`). -/
def fxLink : LinkRow := ⟨7, 0, 10, LinkStatus.complete⟩

/-- A sample system: one index, one active thought with a `complete`
link row `id64 = 7`, whose vector is stored in the vector index. -/
def fxSys : Sys := ⟨⟨[fxEmb], [fxIndex], [fxLink], 8⟩, 11, [(7, [1])]⟩

/-- Collaborators for the sample system: the embedder is constant, and
the similarity search returns its top-`k` prefix of score/id pairs
`(1, 7)` and `(-1, -1)` — the second entry being FAISS's sentinel id `-1`
with its padding score, which appears whenever `k` exceeds the number of
stored vectors. -/
def fxCollab : Collab :=
  ⟨fun _ => ⟨[1], "m1"⟩,
   fun _ k => (([1, -1] : List Rat).take k, ([7, -1] : List Int).take k)⟩

/-- The single search hit produced by the sample system at `k = 1`. -/
def fxHit : SearchHit :=
  ⟨⟨10, 7, "buy milk", ["errand"], EmbStatus.active, 0⟩, 1, 0⟩

/-- C1: the claim says a query whose similarity search returns an id64
with no matching active metadata row skips that entry and returns the
remaining hits, never raising an error.  The code contradicts this:
`Service._create_search_hits` looks up `thoughts_map[id]`, which raises
`KeyError` on a miss.  Here the index holds one active, complete thought
(`id64 = 7`) and the vector search returns `[7, -1]` (a real hit plus the
sentinel), yet the whole query fails with `KeyError(-1)` instead of
returning the one valid hit. -/
theorem query_keyError_on_join_miss :
    query fxCollab fxSys "milk" 0 2 = Except.error (Err.keyError (-1)) := by decide

/-- Helper for C2: every list produced by the `_create_search_hits` loop
starting at position `i` has length equal to the id list and carries
ranks `i, i+1, ...` in order. -/
theorem hitsAux_rank (m : Int → Option ThoughtRecord) (sims : List Rat) (ids : List Int) :
    ∀ (i : Nat) (hs : List SearchHit), hitsAux m sims ids i = Except.ok hs →
      hs.length = ids.length ∧ ∀ j (hj : j < hs.length), (hs.get ⟨j, hj⟩).rank = i + j := by
  induction ids with
  | nil =>
    intro i hs h
    simp only [hitsAux] at h
    cases h
    exact ⟨rfl, fun j hj => absurd hj (by simp)⟩
  | cons id rest ih =>
    intro i hs h
    simp only [hitsAux] at h
    split at h
    · exact Except.noConfusion h
    split at h
    · exact Except.noConfusion h
    split at h
    · exact Except.noConfusion h
    case _ t _ sc _ hs' hr =>
      injection h with h
      subst h
      obtain ⟨hlen, hranks⟩ := ih (i + 1) hs' hr
      refine ⟨by simp [hlen], ?_⟩
      intro j hj
      cases j with
      | zero => rfl
      | succ j' =>
        have hj' : j' < hs'.length := by simpa using hj
        show (hs'.get ⟨j', hj'⟩).rank = i + (j' + 1)
        rw [hranks j' hj']
        omega

/-- C2: whenever `Service.query` returns a result list, the `rank` field
of the `i`-th returned `SearchHit` is exactly `i`: ranks are dense,
contiguous and zero-based in the returned list. -/
theorem query_ranks_dense (c : Collab) (s : Sys) (q : String) (index_id k : Nat)
    (hits : List SearchHit) (h : query c s q index_id k = Except.ok hits) :
    ∀ j (hj : j < hits.length), (hits.get ⟨j, hj⟩).rank = j := by
  simp only [query] at h
  split at h
  · exact Except.noConfusion h
  case _ ts hts =>
    intro j hj
    have := (hitsAux_rank (thoughtsMap ts) _ _ 0 hits h).2 j hj
    simpa using this

/-- Witness for C2 at the sample system with `k = 1`: the query succeeds
with one hit, whose rank is `0`. -/
theorem query_ranks_dense_witness :
    query fxCollab fxSys "milk" 0 1 = Except.ok [fxHit] ∧
      ([fxHit].get ⟨0, Nat.zero_lt_one⟩).rank = 0 :=
  ⟨by decide,
   query_ranks_dense fxCollab fxSys "milk" 0 1 [fxHit] (by decide) 0 Nat.zero_lt_one⟩

/-- Counterexample for C3: `Service.query` with an `index_id` that exists
nowhere in the catalog (here `99`) does not fail with an `UnknownIndex`
error — no such error exists in the code base and no existence check is
performed — it fails with `KeyError(7)` raised incidentally by the
rank-join when the first returned id64 finds no row scoped to the unknown
index. -/
theorem query_unknown_index_counterexample :
    query fxCollab fxSys "milk" 99 2 = Except.error (Err.keyError 7) ∧
      Err.keyError 7 ≠ Err.unknownIndex := by decide

/-- C3 (amended): a query against an `index_id` absent from the catalog
(assuming the foreign-key invariant that every link row references a
cataloged index, which SQLite enforces with `PRAGMA foreign_keys = ON`)
never succeeds and never raises a dedicated unknown-index error: it fails
with `ValueError` when the similarity search returns an empty id array,
and otherwise with `KeyError` from the rank-join. -/
theorem query_unknown_index_fails_incidentally (c : Collab) (s : Sys) (q : String)
    (index_id k : Nat)
    (hunk : ∀ ix ∈ s.db.indexes, ix.index_id ≠ index_id)
    (hfk : ∀ l ∈ s.db.links, ∃ ix ∈ s.db.indexes, ix.index_id = l.index_id) :
    query c s q index_id k = Except.error (Err.valueError "Ids must be non-empty.") ∨
      ∃ id, query c s q index_id k = Except.error (Err.keyError id) := by
  rcases hids : (c.storeQuery (c.embed q).vector k).2 with _ | ⟨id, rest⟩
  · left
    simp [query, hids, retrieveThoughts]
  · right
    refine ⟨id, ?_⟩
    have hts : retrieveThoughts s (id :: rest) index_id EmbStatus.active = Except.ok [] := by
      simp only [retrieveThoughts, List.isEmpty_cons, Bool.false_eq_true, if_false]
      congr 1
      rw [List.filterMap_eq_nil_iff]
      intro l hl
      obtain ⟨ix, hix, hixid⟩ := hfk l hl
      have hne : l.index_id ≠ index_id := hixid ▸ hunk ix hix
      simp [hne]
    simp [query, hids, hts, createSearchHits, hitsAux, thoughtsMap]

/-- Witness for C3 (amended) at the sample system with unknown index 99:
the hypotheses hold concretely and the query fails with a join error. -/
theorem query_unknown_index_fails_incidentally_witness :
    query fxCollab fxSys "milk" 99 2 = Except.error (Err.valueError "Ids must be non-empty.") ∨
      ∃ id, query fxCollab fxSys "milk" 99 2 = Except.error (Err.keyError id) :=
  query_unknown_index_fails_incidentally fxCollab fxSys "milk" 99 2
    (by decide) (by decide)

end Cerebrum

namespace Cerebrum

/-- Characterization of a successful `insert_thought` transaction: the
returned `id64` is the AUTOINCREMENT value, and the committed state
appends exactly the embedding row (active, with the vector bytes) and the
link row (pending), bumping both counters. -/
theorem insertThought_ok {s : Sys} {t : Thought} {emb : EmbeddingRecord} {index_id : Nat}
    {id64 : Nat} {s1 : Sys} (h : insertThought s t emb index_id = Except.ok (id64, s1)) :
    id64 = s.db.next_id64 ∧
    s1 = { s with
      uuidCtr := s.uuidCtr + 1,
      db := { s.db with
        embeddings := s.db.embeddings ++ [embRowOf s t emb],
        links := s.db.links ++ [⟨s.db.next_id64, index_id, s.uuidCtr, LinkStatus.pending⟩],
        next_id64 := s.db.next_id64 + 1 } } := by
  simp only [insertThought] at h
  split at h
  · exact Except.noConfusion h
  split at h
  · exact Except.noConfusion h
  split at h
  · exact Except.noConfusion h
  injection h with h
  injection h with h1 h2
  exact ⟨h1.symm, h2.symm⟩

/-- C4: whenever the metadata transaction of `add_thought` commits
(producing the intermediate state `s1`), the returned value is exactly
the `id64` generated by the link-row insert (`s.db.next_id64`); the
commit happens before any vector-index write (`s1`'s vector store is
untouched, and a failing vector write leaves exactly `s1`); and only
after the vector write succeeds is the link row updated to `complete`. -/
theorem addThought_protocol (c : Collab) (s : Sys) (t : Thought) (index_id : Nat)
    (id64 : Nat) (s1 : Sys)
    (h : insertThought s t (c.embed t.body) index_id = Except.ok (id64, s1)) :
    id64 = s.db.next_id64 ∧
    s1.vecStore = s.vecStore ∧
    (⟨id64, index_id, s.uuidCtr, LinkStatus.pending⟩ : LinkRow) ∈ s1.db.links ∧
    embRowOf s t (c.embed t.body) ∈ s1.db.embeddings ∧
    addThought c s t index_id true false = (Except.error Err.ioError, s1) ∧
    addThought c s t index_id false false =
      (Except.ok id64,
        { db := completeLink s1.db id64,
          uuidCtr := s1.uuidCtr,
          vecStore := s1.vecStore ++ [(id64, (c.embed t.body).vector)] }) ∧
    (⟨id64, index_id, s.uuidCtr, LinkStatus.complete⟩ : LinkRow) ∈ (completeLink s1.db id64).links := by
  obtain ⟨hid, hs1⟩ := insertThought_ok h
  subst hid
  subst hs1
  refine ⟨rfl, rfl, by simp, by simp, ?_, ?_, ?_⟩
  · simp [addThought, h]
  · simp [addThought, h, completeThoughtInsert]
  · refine List.mem_map.mpr
      ⟨⟨s.db.next_id64, index_id, s.uuidCtr, LinkStatus.pending⟩, by simp, by simp⟩

/-- C5: if the vector-index write (step 3) or the completion update
(step 4) of `add_thought` fails, the error propagates to the caller and
the already-committed metadata state `s1` is left untouched: the final
state is exactly `s1` (resp. `s1` with only the vector store extended),
still holding the embedding row with its vector bytes and the
still-`pending` link row — no rollback or deletion occurs. -/
theorem addThought_failure_durable (c : Collab) (s : Sys) (t : Thought) (index_id : Nat)
    (id64 : Nat) (s1 : Sys)
    (h : insertThought s t (c.embed t.body) index_id = Except.ok (id64, s1)) :
    (∀ completeFail, addThought c s t index_id true completeFail =
      (Except.error Err.ioError, s1)) ∧
    addThought c s t index_id false true =
      (Except.error Err.ioError,
        { s1 with vecStore := s1.vecStore ++ [(id64, (c.embed t.body).vector)] }) ∧
    (addThought c s t index_id false true).2.db = s1.db ∧
    (⟨id64, index_id, s.uuidCtr, LinkStatus.pending⟩ : LinkRow) ∈ s1.db.links ∧
    embRowOf s t (c.embed t.body) ∈ s1.db.embeddings ∧
    (embRowOf s t (c.embed t.body)).embedding = (c.embed t.body).vector ∧
    (embRowOf s t (c.embed t.body)).status = EmbStatus.active := by
  obtain ⟨hid, hs1⟩ := insertThought_ok h
  subst hid
  subst hs1
  refine ⟨?_, ?_, ?_, by simp, by simp, rfl, rfl⟩
  · intro completeFail
    simp [addThought, h]
  · simp [addThought, h]
  · simp [addThought, h]

/-- An empty freshly-bootstrapped system holding one catalog index. -/
def fx0 : Sys := ⟨⟨[], [⟨0, "notes", "flat", 0⟩], [], 1⟩, 1, []⟩

/-- A sample thought. -/
def fxT : Thought := ⟨"buy milk", ["errand"]⟩

/-- The committed intermediate state after `insert_thought` on `fx0`. -/
def fxS1 : Sys :=
  ⟨⟨[⟨1, "buy milk", ["errand"], "m1", EmbStatus.active, [1], 0⟩],
    [⟨0, "notes", "flat", 0⟩], [⟨1, 0, 1, LinkStatus.pending⟩], 2⟩, 2, []⟩

/-- Witness for C4 on the bootstrapped system: the transaction commits
with `id64 = 1` and the successful call returns it, completing the link
and writing the vector afterwards. -/
theorem addThought_protocol_witness :
    insertThought fx0 fxT (fxCollab.embed fxT.body) 0 = Except.ok (1, fxS1) ∧
      addThought fxCollab fx0 fxT 0 false false =
        (Except.ok 1,
          { db := completeLink fxS1.db 1,
            uuidCtr := fxS1.uuidCtr,
            vecStore := fxS1.vecStore ++ [(1, (fxCollab.embed fxT.body).vector)] }) :=
  ⟨by decide, (addThought_protocol fxCollab fx0 fxT 0 1 fxS1 (by decide)).2.2.2.2.2.1⟩

/-- Witness for C5 on the bootstrapped system: a failing vector write
surfaces the error and leaves exactly the committed state `fxS1`. -/
theorem addThought_failure_durable_witness :
    insertThought fx0 fxT (fxCollab.embed fxT.body) 0 = Except.ok (1, fxS1) ∧
      addThought fxCollab fx0 fxT 0 true false = (Except.error Err.ioError, fxS1) :=
  ⟨by decide, (addThought_failure_durable fxCollab fx0 fxT 0 1 fxS1 (by decide)).1 false⟩

end Cerebrum

namespace Cerebrum

/-- Characterization of a successful `add_thought` call: it decomposes
into a successful `insert_thought` commit followed by the vector write
and the link-completion update. -/
theorem addThought_ok {c : Collab} {s : Sys} {t : Thought} {index_id : Nat}
    {id : Nat} {s' : Sys} (h : addThought c s t index_id false false = (Except.ok id, s')) :
    ∃ s1, insertThought s t (c.embed t.body) index_id = Except.ok (id, s1) ∧
      s' = { db := completeLink s1.db id, uuidCtr := s1.uuidCtr,
             vecStore := s1.vecStore ++ [(id, (c.embed t.body).vector)] } := by
  simp only [addThought] at h
  cases hi : insertThought s t (c.embed t.body) index_id with
  | error e =>
    rw [hi] at h
    simp at h
  | ok p =>
    obtain ⟨id1, s1⟩ := p
    rw [hi] at h
    simp only [Bool.false_eq_true, if_false, completeThoughtInsert] at h
    injection h with h1 h2
    injection h1 with h1
    subst h1
    exact ⟨s1, rfl, h2.symm⟩

/-- The AUTOINCREMENT invariant: every link row's `id64` is below the
counter value SQLite will hand out next. -/
def LinkIdsBounded (s : Sys) : Prop := ∀ l ∈ s.db.links, l.id64 < s.db.next_id64

instance (s : Sys) : Decidable (LinkIdsBounded s) :=
  inferInstanceAs (Decidable (∀ l ∈ s.db.links, l.id64 < s.db.next_id64))

/-- A successful `add_thought` returns the current AUTOINCREMENT value,
bumps it by one, and preserves the `LinkIdsBounded` invariant. -/
theorem addThought_id64_facts {c : Collab} {s : Sys} {t : Thought} {index_id : Nat}
    {id : Nat} {s' : Sys} (hb : LinkIdsBounded s)
    (h : addThought c s t index_id false false = (Except.ok id, s')) :
    id = s.db.next_id64 ∧ s'.db.next_id64 = s.db.next_id64 + 1 ∧ LinkIdsBounded s' := by
  obtain ⟨s1, hi, hs'⟩ := addThought_ok h
  obtain ⟨hid, hs1⟩ := insertThought_ok hi
  subst hid
  subst hs1
  subst hs'
  refine ⟨rfl, rfl, ?_⟩
  intro l' hl'
  simp only [completeLink, List.mem_map] at hl'
  obtain ⟨l, hl, rfl⟩ := hl'
  have hid64 : (if l.id64 == s.db.next_id64
      then { l with status := LinkStatus.complete } else l).id64 = l.id64 := by
    split <;> rfl
  rw [hid64]
  rcases List.mem_append.mp hl with hold | hnew
  · exact Nat.lt_succ_of_lt (hb l hold)
  · simp at hnew
    subst hnew
    exact Nat.lt_succ_self _

/-- C7: under the AUTOINCREMENT invariant, two consecutive successful
`add_thought` calls — into arbitrary (possibly different) indexes, with
arbitrary (possibly identical) thoughts — return strictly increasing,
hence distinct, `id64` values, and neither value reuses any `id64`
already present among the link rows when its call started. -/
theorem id64_monotone_unique (c c' : Collab) (s s1 s2 : Sys) (t t' : Thought)
    (idx idx' : Nat) (id1 id2 : Nat)
    (hb : LinkIdsBounded s)
    (h1 : addThought c s t idx false false = (Except.ok id1, s1))
    (h2 : addThought c' s1 t' idx' false false = (Except.ok id2, s2)) :
    id1 < id2 ∧ id1 ≠ id2 ∧ (∀ l ∈ s.db.links, l.id64 ≠ id1) ∧
      (∀ l ∈ s1.db.links, l.id64 ≠ id2) := by
  obtain ⟨e1, n1, b1⟩ := addThought_id64_facts hb h1
  obtain ⟨e2, n2, b2⟩ := addThought_id64_facts b1 h2
  have hlt : id1 < id2 := by
    rw [e1, e2, n1]
    exact Nat.lt_succ_self _
  refine ⟨hlt, Nat.ne_of_lt hlt, ?_, ?_⟩
  · intro l hl
    rw [e1]
    exact Nat.ne_of_lt (hb l hl)
  · intro l hl
    rw [e2]
    exact Nat.ne_of_lt (b1 l hl)

/-- The system after the first successful `add_thought` on `fx0`. -/
def fxA : Sys :=
  ⟨⟨[⟨1, "buy milk", ["errand"], "m1", EmbStatus.active, [1], 0⟩],
    [⟨0, "notes", "flat", 0⟩], [⟨1, 0, 1, LinkStatus.complete⟩], 2⟩, 2, [(1, [1])]⟩

/-- The system after a second successful `add_thought` on `fxA`. -/
def fxB : Sys :=
  ⟨⟨[⟨1, "buy milk", ["errand"], "m1", EmbStatus.active, [1], 0⟩,
     ⟨2, "buy milk", ["errand"], "m1", EmbStatus.active, [1], 0⟩],
    [⟨0, "notes", "flat", 0⟩],
    [⟨1, 0, 1, LinkStatus.complete⟩, ⟨2, 0, 2, LinkStatus.complete⟩], 3⟩,
   3, [(1, [1]), (2, [1])]⟩

/-- Witness for C7: two concrete consecutive inserts of the same thought
return `id64 = 1` then `id64 = 2`, strictly increasing. -/
theorem id64_monotone_unique_witness :
    addThought fxCollab fx0 fxT 0 false false = (Except.ok 1, fxA) ∧
      addThought fxCollab fxA fxT 0 false false = (Except.ok 2, fxB) ∧ (1 : Nat) < 2 :=
  ⟨by decide, by decide,
   (id64_monotone_unique fxCollab fxCollab fx0 fxA fxB fxT fxT 0 0 1 2
     (by decide) (by decide) (by decide)).1⟩

/-- C8: under the freshness invariant for `uuid4()`-generated catalog
identities, `create_index` with a name already present in the catalog
fails with the uniqueness integrity error — the spec's `DuplicateName`
condition, surfaced as SQLite's `UNIQUE (index_name)` violation — and
leaves the catalog unchanged, while `create_index` with a fresh name
succeeds and returns the newly allocated `index_id`, appending exactly
one catalog row. -/
theorem createIndex_name_unique (s : Sys) (index_name algorithm : String)
    (hfresh : ∀ ix ∈ s.db.indexes, ix.index_id < s.uuidCtr) :
    ((∃ ix ∈ s.db.indexes, ix.index_name = index_name) →
      createIndex s index_name algorithm =
        (Except.error (Err.integrityError "UNIQUE constraint failed: indexes.index_name"), s)) ∧
    ((∀ ix ∈ s.db.indexes, ix.index_name ≠ index_name) →
      createIndex s index_name algorithm =
        (Except.ok s.uuidCtr,
          { s with
            uuidCtr := s.uuidCtr + 1,
            db := { s.db with
              indexes := s.db.indexes ++ [⟨s.uuidCtr, index_name, algorithm, 0⟩] } })) := by
  constructor
  · rintro ⟨ix, hix, hname⟩
    have hdup : s.db.indexes.any (fun j => j.index_name == index_name) = true :=
      List.any_eq_true.mpr ⟨ix, hix, by simp [hname]⟩
    simp [createIndex, hdup]
  · intro hno
    have h1 : s.db.indexes.any (fun j => j.index_name == index_name) = false := by
      rw [List.any_eq_false]
      intro ix hix
      simp [hno ix hix]
    have h2 : s.db.indexes.any (fun j => j.index_id == s.uuidCtr) = false := by
      rw [List.any_eq_false]
      intro ix hix
      simp [Nat.ne_of_lt (hfresh ix hix)]
    simp [createIndex, h1, h2]

/-- Witness for C8 on the sample system: creating "notes" again fails
with the uniqueness error and leaves the state unchanged; creating a
fresh name "todo" succeeds with the newly allocated id. -/
theorem createIndex_name_unique_witness :
    createIndex fxSys "notes" "flat" =
      (Except.error (Err.integrityError "UNIQUE constraint failed: indexes.index_name"), fxSys) ∧
    createIndex fxSys "todo" "flat" =
      (Except.ok fxSys.uuidCtr,
        { fxSys with
          uuidCtr := fxSys.uuidCtr + 1,
          db := { fxSys.db with
            indexes := fxSys.db.indexes ++ [⟨fxSys.uuidCtr, "todo", "flat", 0⟩] } }) :=
  ⟨(createIndex_name_unique fxSys "notes" "flat" (by decide)).1 (by decide),
   (createIndex_name_unique fxSys "todo" "flat" (by decide)).2 (by decide)⟩

end Cerebrum

namespace Cerebrum

/-- The `uuid4()` freshness invariant: every identity already stored in
the embeddings table or referenced by a link row is below the next value
the fresh-identifier supply will produce. -/
def EmbIdsFresh (s : Sys) : Prop :=
  (∀ e ∈ s.db.embeddings, e.embedding_id < s.uuidCtr) ∧
    (∀ l ∈ s.db.links, l.embedding_id < s.uuidCtr)

instance (s : Sys) : Decidable (EmbIdsFresh s) :=
  inferInstanceAs (Decidable ((∀ e ∈ s.db.embeddings, e.embedding_id < s.uuidCtr) ∧
    (∀ l ∈ s.db.links, l.embedding_id < s.uuidCtr)))

/-- Under the freshness invariant and with the target index in the
catalog, the `insert_thought` transaction always commits: no constraint
— in particular `UNIQUE (index_id, embedding_id)` — can fire, because
the freshly generated `embedding_id` appears nowhere yet. -/
theorem insertThought_fresh_ok (s : Sys) (t : Thought) (emb : EmbeddingRecord)
    (index_id : Nat)
    (hf : EmbIdsFresh s) (hix : ∃ ix ∈ s.db.indexes, ix.index_id = index_id) :
    insertThought s t emb index_id =
      Except.ok (s.db.next_id64,
        { s with
          uuidCtr := s.uuidCtr + 1,
          db := { s.db with
            embeddings := s.db.embeddings ++ [embRowOf s t emb],
            links := s.db.links ++ [⟨s.db.next_id64, index_id, s.uuidCtr, LinkStatus.pending⟩],
            next_id64 := s.db.next_id64 + 1 } }) := by
  obtain ⟨ix, hix0, hixid⟩ := hix
  have c1 : s.db.embeddings.any (fun e => e.embedding_id == s.uuidCtr) = false := by
    rw [List.any_eq_false]
    intro e he
    simp [Nat.ne_of_lt (hf.1 e he)]
  have c2 : s.db.indexes.any (fun j => j.index_id == index_id) = true :=
    List.any_eq_true.mpr ⟨ix, hix0, by simp [hixid]⟩
  have c3 : s.db.links.any
      (fun l => l.index_id == index_id && l.embedding_id == s.uuidCtr) = false := by
    rw [List.any_eq_false]
    intro l hl
    simp [Nat.ne_of_lt (hf.2 l hl)]
  simp [insertThought, c1, c2, c3]

/-- The full system state after a successful `add_thought` call: both
rows committed, the link row completed, the vector stored. -/
def afterAdd (c : Collab) (s : Sys) (t : Thought) (idx : Nat) : Sys :=
  { db := { embeddings := s.db.embeddings ++ [embRowOf s t (c.embed t.body)],
            indexes := s.db.indexes,
            links := s.db.links.map
                (fun l => if l.id64 == s.db.next_id64
                  then { l with status := LinkStatus.complete } else l) ++
              [⟨s.db.next_id64, idx, s.uuidCtr, LinkStatus.complete⟩],
            next_id64 := s.db.next_id64 + 1 },
    uuidCtr := s.uuidCtr + 1,
    vecStore := s.vecStore ++ [(s.db.next_id64, (c.embed t.body).vector)] }

/-- Under the freshness invariant, `add_thought` (with both external
steps succeeding) returns the AUTOINCREMENT value and produces exactly
`afterAdd`. -/
theorem addThought_fresh_succeeds (c : Collab) (s : Sys) (t : Thought) (idx : Nat)
    (hf : EmbIdsFresh s) (hix : ∃ ix ∈ s.db.indexes, ix.index_id = idx) :
    addThought c s t idx false false = (Except.ok s.db.next_id64, afterAdd c s t idx) := by
  have hIT := insertThought_fresh_ok s t (c.embed t.body) idx hf hix
  simp [addThought, hIT, completeThoughtInsert, completeLink, afterAdd]

/-- A successful `add_thought` preserves the freshness invariant. -/
theorem afterAdd_fresh {c : Collab} {s : Sys} {t : Thought} {idx : Nat}
    (hf : EmbIdsFresh s) : EmbIdsFresh (afterAdd c s t idx) := by
  constructor
  · intro e he
    simp only [afterAdd, List.mem_append, List.mem_singleton] at he
    rcases he with he | he
    · exact Nat.lt_succ_of_lt (hf.1 e he)
    · subst he
      exact Nat.lt_succ_self _
  · intro l hl
    simp only [afterAdd, List.mem_append, List.mem_singleton, List.mem_map] at hl
    rcases hl with ⟨l0, hl0, rfl⟩ | rfl
    · have hpres : (if l0.id64 == s.db.next_id64
          then { l0 with status := LinkStatus.complete }
          else l0).embedding_id = l0.embedding_id := by
        split <;> rfl
      rw [hpres]
      exact Nat.lt_succ_of_lt (hf.2 l0 hl0)
    · exact Nat.lt_succ_self _

/-- C10: every `add_thought` call allocates a fresh `embedding_id` of its
own, so adding a thought twice — same index or different indexes, same
thought or not — always succeeds (the `(index_id, embedding_id)`
uniqueness constraint can never fire through this interface) and creates
two independent embedding rows with distinct `embedding_id`s and two
distinct link rows with distinct `id64`s. -/
theorem addThought_always_fresh_embedding (c c' : Collab) (s : Sys) (t t' : Thought)
    (idx idx' : Nat)
    (hf : EmbIdsFresh s)
    (hix : ∃ ix ∈ s.db.indexes, ix.index_id = idx)
    (hix' : ∃ ix ∈ s.db.indexes, ix.index_id = idx') :
    ∃ id1 s1 id2 s2,
      addThought c s t idx false false = (Except.ok id1, s1) ∧
      addThought c' s1 t' idx' false false = (Except.ok id2, s2) ∧
      (∃ e ∈ s2.db.embeddings, e.embedding_id = s.uuidCtr) ∧
      (∃ e ∈ s2.db.embeddings, e.embedding_id = s.uuidCtr + 1) ∧
      (∃ l ∈ s2.db.links, l.id64 = id1 ∧ l.embedding_id = s.uuidCtr) ∧
      (∃ l ∈ s2.db.links, l.id64 = id2 ∧ l.embedding_id = s.uuidCtr + 1) ∧
      id1 ≠ id2 := by
  have h1 := addThought_fresh_succeeds c s t idx hf hix
  have h2 := addThought_fresh_succeeds c' (afterAdd c s t idx) t' idx'
    (afterAdd_fresh hf) hix'
  refine ⟨s.db.next_id64, afterAdd c s t idx, (afterAdd c s t idx).db.next_id64,
    afterAdd c' (afterAdd c s t idx) t' idx', h1, h2, ?_, ?_, ?_, ?_, ?_⟩
  · exact ⟨embRowOf s t (c.embed t.body), by simp [afterAdd], rfl⟩
  · exact ⟨embRowOf (afterAdd c s t idx) t' (c'.embed t'.body), by simp [afterAdd], rfl⟩
  · refine ⟨⟨s.db.next_id64, idx, s.uuidCtr, LinkStatus.complete⟩, ?_, rfl, rfl⟩
    simp only [afterAdd, List.mem_append, List.mem_map]
    left
    refine ⟨⟨s.db.next_id64, idx, s.uuidCtr, LinkStatus.complete⟩, by simp, by simp⟩
  · exact ⟨⟨(afterAdd c s t idx).db.next_id64, idx', (afterAdd c s t idx).uuidCtr,
      LinkStatus.complete⟩, by simp [afterAdd], rfl, rfl⟩
  · simp [afterAdd]

/-- Witness for C10: inserting the sample thought twice into the same
index of the bootstrapped system satisfies the hypotheses concretely. -/
theorem addThought_always_fresh_embedding_witness :
    ∃ id1 s1 id2 s2,
      addThought fxCollab fx0 fxT 0 false false = (Except.ok id1, s1) ∧
      addThought fxCollab s1 fxT 0 false false = (Except.ok id2, s2) ∧
      (∃ e ∈ s2.db.embeddings, e.embedding_id = fx0.uuidCtr) ∧
      (∃ e ∈ s2.db.embeddings, e.embedding_id = fx0.uuidCtr + 1) ∧
      (∃ l ∈ s2.db.links, l.id64 = id1 ∧ l.embedding_id = fx0.uuidCtr) ∧
      (∃ l ∈ s2.db.links, l.id64 = id2 ∧ l.embedding_id = fx0.uuidCtr + 1) ∧
      id1 ≠ id2 :=
  addThought_always_fresh_embedding fxCollab fxCollab fx0 fxT fxT 0 0
    (by decide) (by decide) (by decide)

end Cerebrum

namespace Cerebrum

/-- Inner product of two real vectors (`faiss.IndexFlatIP`'s similarity),
zero-padded past the shorter vector. -/
def dotR : List ℝ → List ℝ → ℝ
  | x :: xs, y :: ys => x * y + dotR xs ys
  | _, _ => 0

/-- Squared L2 norm. -/
def sumSq (v : List ℝ) : ℝ := dotR v v

/-- `faiss.normalize_L2` on one row: divide every coordinate by the L2
norm, modelled in exact real arithmetic (float32 rounding set aside). -/
noncomputable def l2normalize (v : List ℝ) : List ℝ :=
  v.map (fun x => x / Real.sqrt (sumSq v))

/-- Dividing both arguments of the inner product by a common constant
divides the result by its square. -/
theorem dotR_map_div (u : List ℝ) : ∀ (v : List ℝ) (c : ℝ),
    dotR (u.map (fun x => x / c)) (v.map (fun x => x / c)) = dotR u v / (c * c) := by
  induction u with
  | nil =>
    intro v c
    cases v <;> simp [dotR]
  | cons x xs ih =>
    intro v c
    cases v with
    | nil => simp [dotR]
    | cons y ys =>
      simp only [List.map_cons, dotR, ih]
      rw [div_mul_div_comm, div_add_div_same]

/-- Cosine self-similarity: a nonzero vector, L2-normalized, has inner
product exactly 1 with itself. -/
theorem dot_self_normalize (v : List ℝ) (hv : 0 < sumSq v) :
    dotR (l2normalize v) (l2normalize v) = 1 := by
  unfold l2normalize
  rw [dotR_map_div, Real.mul_self_sqrt (le_of_lt hv)]
  exact div_self (ne_of_gt hv)

instance : IsTotal (ℝ × Int) (fun a b => b.1 ≤ a.1) := ⟨fun a b => le_total b.1 a.1⟩

instance : IsTrans (ℝ × Int) (fun a b => b.1 ≤ a.1) := ⟨fun _ _ _ h1 h2 => le_trans h2 h1⟩

/-- Score/id pairs sorted by descending score (FAISS returns top-k
matches best first). -/
noncomputable def sortDesc (l : List (ℝ × Int)) : List (ℝ × Int) :=
  List.insertionSort (fun a b => b.1 ≤ a.1) l

/-- The `IndexIDMap2(IndexFlatIP)` search called by `FaissClient.query`:
score every stored (id, vector) pair against the already-normalized
query by inner product, return the top-`k` scores and ids best-first,
padding with the sentinel id `-1` (and a padding score) when fewer than
`k` vectors are stored — the documented FAISS behaviour of the index
types constructed in `FaissClient._create_index_id_map_index`. -/
noncomputable def searchIP (st : List (Int × List ℝ)) (nq : List ℝ) (k : Nat) :
    List ℝ × List Int :=
  let top := (sortDesc (st.map (fun p => (dotR nq p.2, p.1)))).take k
  (top.map Prod.fst ++ List.replicate (k - top.length) (-2),
   top.map Prod.snd ++ List.replicate (k - top.length) (-1))

/-- `numpy.ndarray` dtypes relevant to `FaissClient._normalize_embedding`'s
dtype check. -/
inductive NpDtype where
  | float32
  | float64
deriving DecidableEq

/-- The observable state of a 2-D numpy array as used by `FaissClient`:
its rows, its second shape component, its dtype, and its
`flags.c_contiguous` bit. -/
structure NpArray where
  rows : List (List ℝ)
  ncols : Nat
  dtype : NpDtype
  c_contiguous : Bool

/-- Row-wise `faiss.normalize_L2` applied to an array (the result of
`np.ascontiguousarray` is always C-contiguous). -/
noncomputable def normalizeRows (a : NpArray) : NpArray :=
  { a with
    rows := a.rows.map l2normalize,
    c_contiguous := true }

/-- `FaissClient._normalize_embedding`: reject a non-float32 dtype
(`TypeError`) or a wrong second dimension (`ValueError`); otherwise, if
the array is C-contiguous, `faiss.normalize_L2` mutates it in place (the
caller's array and the array handed to the index are the same normalized
object), and if not, `np.ascontiguousarray` first copies it, so only the
copy is normalized and the caller's array is untouched.  The returned
pair is (the caller's array after the call, the array handed to FAISS). -/
noncomputable def normalizeEmbedding (dims : Nat) (a : NpArray) :
    Except Err (NpArray × NpArray) :=
  if a.dtype ≠ NpDtype.float32 then
    Except.error (Err.typeError "dtype must be np.float32 type for FAISS")
  else if a.ncols ≠ dims then
    Except.error (Err.valueError "shape mismatch")
  else if a.c_contiguous then Except.ok (normalizeRows a, normalizeRows a)
  else Except.ok (a, normalizeRows a)

/-- `FaissClient.write`: normalize, then `add_with_ids`.  Returns the new
index contents and the caller's array after the call. -/
noncomputable def fcWrite (dims : Nat) (st : List (Int × List ℝ)) (a : NpArray)
    (ids : List Int) : Except Err (List (Int × List ℝ) × NpArray) :=
  match normalizeEmbedding dims a with
  | Except.error e => Except.error e
  | Except.ok (caller, na) => Except.ok (st ++ ids.zip na.rows, caller)

/-- `FaissClient.query`: normalize the (1, d) query array, then search.
Returns the (distances, ids) row and the caller's array after the call. -/
noncomputable def fcQuery (dims : Nat) (st : List (Int × List ℝ)) (a : NpArray)
    (k : Nat) : Except Err ((List ℝ × List Int) × NpArray) :=
  match normalizeEmbedding dims a with
  | Except.error e => Except.error e
  | Except.ok (caller, na) => Except.ok (searchIP st (na.rows.headD []) k, caller)

/-- C9: when the caller's array is C-contiguous (and passes the dtype and
dimension checks), `FaissClient.write` and `FaissClient.query` mutate it
in place: after either call the caller's array object holds the
L2-normalized rows rather than the original values, and the normalized
array is exactly what is handed to the index. -/
theorem faiss_normalize_in_place (dims : Nat) (st : List (Int × List ℝ)) (a : NpArray)
    (ids : List Int) (k : Nat)
    (h1 : a.dtype = NpDtype.float32) (h2 : a.ncols = dims) (h3 : a.c_contiguous = true) :
    fcWrite dims st a ids =
      Except.ok (st ++ ids.zip (a.rows.map l2normalize), normalizeRows a) ∧
    fcQuery dims st a k =
      Except.ok (searchIP st ((a.rows.map l2normalize).headD []) k, normalizeRows a) ∧
    (normalizeRows a).rows = a.rows.map l2normalize := by
  have hne : normalizeEmbedding dims a = Except.ok (normalizeRows a, normalizeRows a) := by
    simp [normalizeEmbedding, h1, h2, h3]
  refine ⟨?_, ?_, rfl⟩ <;> simp [fcWrite, fcQuery, hne, normalizeRows]

/-- A concrete contiguous float32 (1, 2) array. -/
def aW : NpArray := ⟨[[1, 0]], 2, NpDtype.float32, true⟩

/-- Witness for C9 at a concrete array: the hypotheses hold, the write
succeeds with the caller's array normalized in place, and the
normalization evaluates concretely (the unit vector is fixed). -/
theorem faiss_normalize_in_place_witness :
    aW.c_contiguous = true ∧
      fcWrite 2 [] aW [3] =
        Except.ok ([] ++ [(3 : Int)].zip (aW.rows.map l2normalize), normalizeRows aW) ∧
      l2normalize [(1 : ℝ), 0] = [1, 0] := by
  refine ⟨rfl, (faiss_normalize_in_place 2 [] aW [3] 1 rfl rfl rfl).1, ?_⟩
  norm_num [l2normalize, sumSq, dotR, Real.sqrt_one]

/-- C6: round-trip at the vector-index layer.  If a thought's vector `v`
was written (the index stores `(id, l2normalize v)`), `v` is nonzero, and
no other stored entry ties at cosine similarity 1, then querying with the
thought's own embedding returns `id` at rank 0 with similarity exactly 1
in real arithmetic (≈ 1.0 under float32), because the write stored the
L2-normalized vector and the query path normalizes before the
inner-product search: the last conjunct checks that `FaissClient.query`
on the raw `(1, d)` array containing `v` performs exactly
`searchIP st (l2normalize v) k`. -/
theorem faiss_round_trip_rank0 (st : List (Int × List ℝ)) (id : Int) (v : List ℝ)
    (k dims : Nat)
    (hk : 0 < k) (hmem : (id, l2normalize v) ∈ st) (hv : 0 < sumSq v)
    (htie : ∀ p ∈ st, p ≠ (id, l2normalize v) → dotR (l2normalize v) p.2 < 1) :
    (searchIP st (l2normalize v) k).2.head? = some id ∧
      (searchIP st (l2normalize v) k).1.head? = some 1 ∧
      fcQuery dims st ⟨[v], dims, NpDtype.float32, true⟩ k =
        Except.ok (searchIP st (l2normalize v) k,
          normalizeRows ⟨[v], dims, NpDtype.float32, true⟩) := by
  have hself : ((1 : ℝ), id) ∈ st.map (fun p => (dotR (l2normalize v) p.2, p.1)) :=
    List.mem_map.mpr ⟨(id, l2normalize v), hmem, by simp [dot_self_normalize v hv]⟩
  have hle : ∀ q ∈ st.map (fun p => (dotR (l2normalize v) p.2, p.1)), q.1 ≤ 1 := by
    intro q hq
    obtain ⟨p, hp, rfl⟩ := List.mem_map.mp hq
    by_cases hpe : p = (id, l2normalize v)
    · subst hpe
      simp [dot_self_normalize v hv]
    · exact le_of_lt (htie p hp hpe)
  have hmax : ∀ q ∈ st.map (fun p => (dotR (l2normalize v) p.2, p.1)),
      1 ≤ q.1 → q.2 = id := by
    intro q hq h1
    obtain ⟨p, hp, rfl⟩ := List.mem_map.mp hq
    by_cases hpe : p = (id, l2normalize v)
    · subst hpe
      rfl
    · exact absurd h1 (not_le.mpr (htie p hp hpe))
  have hperm : (sortDesc (st.map (fun p => (dotR (l2normalize v) p.2, p.1)))).Perm
      (st.map (fun p => (dotR (l2normalize v) p.2, p.1))) :=
    List.perm_insertionSort _ _
  have hsorted : List.Sorted (fun (a b : ℝ × Int) => b.1 ≤ a.1)
      (sortDesc (st.map (fun p => (dotR (l2normalize v) p.2, p.1)))) :=
    List.sorted_insertionSort _ _
  have hselfs : ((1 : ℝ), id) ∈
      sortDesc (st.map (fun p => (dotR (l2normalize v) p.2, p.1))) :=
    hperm.mem_iff.mpr hself
  obtain ⟨h, tl, hsort⟩ := List.exists_cons_of_ne_nil (List.ne_nil_of_mem hselfs)
  rw [hsort] at hperm hsorted hselfs
  have hmemh : h ∈ st.map (fun p => (dotR (l2normalize v) p.2, p.1)) :=
    hperm.mem_iff.mp (by simp)
  have h1le : h.1 ≤ 1 := hle h hmemh
  have hrel : ∀ y ∈ tl, y.1 ≤ h.1 := fun y hy => List.rel_of_sorted_cons hsorted y hy
  have h1ge : 1 ≤ h.1 := by
    rcases List.mem_cons.mp hselfs with heq | hmemtl
    · rw [← heq]
    · exact hrel _ hmemtl
  have heq1 : h.1 = 1 := le_antisymm h1le h1ge
  have hid : h.2 = id := hmax h hmemh h1ge
  obtain ⟨k', rfl⟩ : ∃ k', k = k' + 1 :=
    ⟨k - 1, (Nat.succ_pred_eq_of_pos hk).symm⟩
  refine ⟨?_, ?_, ?_⟩
  · simp [searchIP, hsort, List.take_succ_cons, hid]
  · simp [searchIP, hsort, List.take_succ_cons, heq1]
  · simp [fcQuery, normalizeEmbedding, normalizeRows]

/-- A one-vector index holding the normalized unit vector under id 5. -/
noncomputable def stC6 : List (Int × List ℝ) := [(5, l2normalize [1, 0])]

/-- Witness for C6 at a concrete one-vector index: the stored thought's
own vector retrieves id 5 at rank 0 with similarity exactly 1. -/
theorem faiss_round_trip_rank0_witness :
    (0 : ℝ) < sumSq [1, 0] ∧
      (searchIP stC6 (l2normalize [1, 0]) 1).2.head? = some 5 ∧
      (searchIP stC6 (l2normalize [1, 0]) 1).1.head? = some 1 := by
  have hv : (0 : ℝ) < sumSq [1, 0] := by norm_num [sumSq, dotR]
  have htie : ∀ p ∈ stC6, p ≠ ((5 : Int), l2normalize [(1 : ℝ), 0]) →
      dotR (l2normalize [(1 : ℝ), 0]) p.2 < 1 := by
    intro p hp hne
    simp only [stC6, List.mem_singleton] at hp
    exact absurd hp hne
  have h := faiss_round_trip_rank0 stC6 5 [1, 0] 1 2 (by norm_num) (by simp [stC6]) hv htie
  exact ⟨hv, h.1, h.2.1⟩

end Cerebrum
